import Mathlib

/-!
A shallow embedding of the Cohort SPSC FIFO (`src/fifo.rs`) and of the
channel teardown logic (`src/lib.rs`), together with theorems settling the
specification claims against it.

Conventions of the embedding:
- machine integers (`u32`/`usize`) become `Nat`; every index the claims
  exercise stays far below `2^32`, and modular wraparound of the ring
  indices is written explicitly with `% buffer_size`, exactly as in the
  source;
- the backing allocation becomes a `List Nat` of length `capacity + 1`
  (`alloc_zeroed` gives the all-zero list);
- in-place mutation through `&self` becomes explicit state passing: an
  operation returns its result value together with the successor state, and
  an early `return Err(..)` path, which performs no writes in the source,
  returns the state unchanged;
- the `SeqCst` fences around each index store order memory in the
  concurrent setting and are no-ops in this sequential semantics.
-/

namespace Cohort

/-- The error taxonomy of `src/error.rs`. -/
inductive Error where
  | Full
  | Empty
  | Capacity (n : Nat)
  | BatchSizeTooSmall
  | BatchSizeNotEven
  | CapacityLessThanBatchSize
  | CapacityNotEven
deriving DecidableEq

/-- State of a `CohortFifo<T>` from `src/fifo.rs`, with element type fixed
to `Nat`.  `head`, `hw_tail` and `sw_tail` model the three index words;
`buffer_size` models `meta.buffer_size` (always `capacity + 1`); `buffer`
models the backing slots.  The base pointer, element size and 128-byte
alignment are memory-layout details with no observable effect on the
operations and are not represented. -/
structure CohortFifo where
  head : Nat
  hw_tail : Nat
  batch_size : Nat
  buffer_size : Nat
  sw_tail : Nat
  buffer : List Nat
deriving DecidableEq

namespace CohortFifo

/-- `CohortFifo::capacity`: `buffer_size() - 1`. -/
def capacity (s : CohortFifo) : Nat :=
  s.buffer_size - 1

/-- `CohortFifo::is_full`:
`(head % buffer_size) == ((sw_tail + 1) % buffer_size)`. -/
def is_full (s : CohortFifo) : Bool :=
  s.head % s.buffer_size == (s.sw_tail + 1) % s.buffer_size

/-- `CohortFifo::is_empty`: `head == sw_tail`. -/
def is_empty (s : CohortFifo) : Bool :=
  s.head == s.sw_tail

/-- `CohortFifo::num_elems`: `head - sw_tail` when `head >= sw_tail`, else
`capacity() + head - sw_tail`.  Note the wrap branch adds `capacity()`,
not `buffer_size()`. -/
def num_elems (s : CohortFifo) : Nat :=
  if s.sw_tail ≤ s.head then s.head - s.sw_tail
  else s.capacity + s.head - s.sw_tail

/-- `CohortFifo::set_head` (fences elided, see the module comment). -/
def set_head (s : CohortFifo) (h : Nat) : CohortFifo :=
  { s with head := h }

/-- `CohortFifo::set_hw_tail` (fences elided). -/
def set_hw_tail (s : CohortFifo) (t : Nat) : CohortFifo :=
  { s with hw_tail := t }

/-- `CohortFifo::set_sw_tail` (fences elided). -/
def set_sw_tail (s : CohortFifo) (t : Nat) : CohortFifo :=
  { s with sw_tail := t }

/-- The count of elements pushed past the hardware-published tail:
`(sw_tail - hw_tail) mod buffer_size`, written over `Nat`. -/
def unpublished (s : CohortFifo) : Nat :=
  (s.sw_tail + s.buffer_size - s.hw_tail) % s.buffer_size

/-- Modelled from the spec: `try_push` advances the producer tail through
`set_tail`, whose body is absent from the sources (only its call site at
`src/fifo.rs:141` is present).  Per the spec batching rule it advances
`sw_tail` unconditionally and republishes `hw_tail := sw_tail` once the
unpublished element count reaches `batch_size`. -/
def set_tail (s : CohortFifo) (t : Nat) : CohortFifo :=
  let s1 := s.set_sw_tail t
  if s1.batch_size ≤ s1.unpublished then s1.set_hw_tail s1.sw_tail else s1

/-- `CohortFifo::try_push`: fail with `Full` when full, else write `elem1`
at `sw_tail` and `elem2` at `(sw_tail + 1) % buffer_size`, then advance the
tail by 2 modulo `buffer_size` through `set_tail`.  The source advances
with `(tail + 2)` where `tail` is the local read of `sw_tail`. -/
def try_push (s : CohortFifo) (elem1 elem2 : Nat) : Except Error Unit × CohortFifo :=
  if s.is_full then (.error .Full, s)
  else
    let sw_tail := s.sw_tail
    let s1 : CohortFifo :=
      { s with buffer := (s.buffer.set sw_tail elem1).set ((sw_tail + 1) % s.buffer_size) elem2 }
    (.ok (), s1.set_tail ((sw_tail + 2) % s1.buffer_size))

/-- `CohortFifo::try_pop`: fail with `Empty` when `is_empty()` or
`num_elems() == 1`, else read the pair at `head` and
`(head + 1) % buffer_size` and advance `head` by 2 modulo `buffer_size`.
The out-parameters are written only on the success path, so the returned
pair is carried inside the `ok` value. -/
def try_pop (s : CohortFifo) : Except Error (Nat × Nat) × CohortFifo :=
  if s.is_empty || s.num_elems == 1 then (.error .Empty, s)
  else
    let head := s.head
    let elem1 := s.buffer.getD head 0
    let elem2 := s.buffer.getD ((head + 1) % s.buffer_size) 0
    (.ok (elem1, elem2), s.set_head ((head + 2) % s.buffer_size))

/-- `CohortFifo::new`: the four validation guards in source order, then the
zero-initialized state (`alloc_zeroed`) with all indices 0 and
`buffer_size = capacity + 1`. -/
def new (capacity batch_size : Nat) : Except Error CohortFifo :=
  if batch_size < 2 then .error .BatchSizeTooSmall
  else if batch_size % 2 ≠ 0 then .error .BatchSizeNotEven
  else if capacity < batch_size then .error .CapacityLessThanBatchSize
  else if capacity % 2 ≠ 0 then .error .CapacityNotEven
  else .ok
    { head := 0
      hw_tail := 0
      batch_size := batch_size
      buffer_size := capacity + 1
      sw_tail := 0
      buffer := List.replicate (capacity + 1) 0 }

/-- Driver: perform the pushes of a list of pairs in order, stopping at the
first failure (the shape of the producer loops in the tests). -/
def pushList (s : CohortFifo) : List (Nat × Nat) → Except Error CohortFifo
  | [] => .ok s
  | p :: rest =>
    match s.try_push p.1 p.2 with
    | (.ok _, s1) => pushList s1 rest
    | (.error e, _) => .error e

/-- Driver: perform `n` pops in order, stopping at the first failure (the
shape of the consumer loops in the tests). -/
def popN (s : CohortFifo) : Nat → Except Error CohortFifo
  | 0 => .ok s
  | n + 1 =>
    match s.try_pop with
    | (.ok _, s1) => popN s1 n
    | (.error e, _) => .error e

/-- The formula the specification gives for `num_elems` (stated from the
spec words, for the comparison in claim C5): the forward distance from
`sw_tail` to `head` modulo `buffer_size`. -/
def num_elems_spec (s : CohortFifo) : Nat :=
  (s.head + s.buffer_size - s.sw_tail) % s.buffer_size

end CohortFifo

/-- The two kernel calls of the registration ABI (`src/lib.rs`). -/
inductive KernelCall where
  | registerCall
  | unregisterCall
deriving DecidableEq

/-- `Cohort::cohort_mn_unregister` (`src/lib.rs`): each call issues exactly
one unregister syscall. -/
def cohort_mn_unregister : List KernelCall :=
  [KernelCall.unregisterCall]

/-- `impl Drop for Cohort` (`src/lib.rs:173`): the destructor
unconditionally calls `cohort_mn_unregister`. -/
def cohort_drop : List KernelCall :=
  cohort_mn_unregister

/-- The kernel calls issued over the lifetime of a channel on which
`cohort_mn_unregister` was invoked explicitly `n` times before it was
destroyed. -/
def lifetimeCalls (n : Nat) : List KernelCall :=
  (List.replicate n cohort_mn_unregister).flatten ++ cohort_drop

/-- Number of unregister syscalls in a call trace. -/
def countUnregister (l : List KernelCall) : Nat :=
  l.count KernelCall.unregisterCall

/-- A receiver-side state in which the hardware has filled two slots and
published `hw_tail = 2`, while the software mirror `sw_tail` still holds
its initial 0. -/
def stale_receiver : CohortFifo :=
  { head := 0, hw_tail := 2, batch_size := 2, buffer_size := 5, sw_tail := 0
    buffer := [7, 8, 0, 0, 0] }

/-- A capacity-4, batch-size-4 state with one pair pushed but not yet
published (`sw_tail = 2`, `hw_tail = 0`). -/
def half_batch_state : CohortFifo :=
  { head := 0, hw_tail := 0, batch_size := 4, buffer_size := 5, sw_tail := 2
    buffer := [1, 2, 0, 0, 0] }

/-- A capacity-4 receiver-side state holding exactly one unread element:
the producing side has advanced the tail by one position past `head`. -/
def one_elem_state : CohortFifo :=
  { head := 0, hw_tail := 1, batch_size := 2, buffer_size := 5, sw_tail := 1
    buffer := [9, 8, 0, 0, 0] }

end Cohort

namespace Cohort

open CohortFifo

/-- Arithmetic core of the batching analysis: advancing a position by 2
modulo `bs` advances its forward distance from a fixed origin by 2 modulo
`bs`. -/
theorem unpub_advance (sw hw bs : Nat) (hbs : 2 ≤ bs) (hsw : sw < bs) (hhw : hw < bs) :
    ((sw + 2) % bs + bs - hw) % bs = ((sw + bs - hw) % bs + 2) % bs := by
  rcases Nat.lt_or_ge (sw + 2) bs with h | h
  · rw [Nat.mod_eq_of_lt h, Nat.mod_add_mod]
    congr 1
    omega
  · have h1 : (sw + 2) % bs = sw + 2 - bs := by
      rw [Nat.mod_eq_sub_mod h, Nat.mod_eq_of_lt (by omega)]
    rw [h1, Nat.mod_add_mod]
    have e1 : sw + 2 - bs + bs - hw = sw + 2 - hw := by omega
    have e2 : sw + bs - hw + 2 = sw + 2 - hw + bs := by omega
    rw [e1, e2, Nat.add_mod_right]

/-- Unfolding `try_push` on a non-full state. -/
theorem try_push_not_full (s : CohortFifo) (a b : Nat) (hfull : s.is_full = false) :
    s.try_push a b =
      (.ok (),
        ({ s with buffer :=
            (s.buffer.set s.sw_tail a).set ((s.sw_tail + 1) % s.buffer_size) b } :
          CohortFifo).set_tail ((s.sw_tail + 2) % s.buffer_size)) := by
  unfold try_push
  rw [hfull, if_neg Bool.false_ne_true]

/-- `set_tail` written as a single conditional record update. -/
theorem set_tail_cases (s : CohortFifo) (t : Nat) :
    s.set_tail t =
      if s.batch_size ≤ (t + s.buffer_size - s.hw_tail) % s.buffer_size
      then { s with sw_tail := t, hw_tail := t }
      else { s with sw_tail := t } := by
  unfold set_tail set_sw_tail set_hw_tail unpublished
  rfl

/-- `set_tail` writes `sw_tail` and possibly `hw_tail`; everything else is
untouched. -/
theorem set_tail_fields (s : CohortFifo) (t : Nat) :
    (s.set_tail t).sw_tail = t ∧ (s.set_tail t).head = s.head ∧
    (s.set_tail t).buffer_size = s.buffer_size ∧
    (s.set_tail t).batch_size = s.batch_size := by
  rw [set_tail_cases]
  split
  · exact ⟨rfl, rfl, rfl, rfl⟩
  · exact ⟨rfl, rfl, rfl, rfl⟩

/-- Field view of a successful `try_push`. -/
theorem try_push_fields (s : CohortFifo) (a b : Nat) (hfull : s.is_full = false) :
    (s.try_push a b).1 = .ok () ∧
    (s.try_push a b).2.sw_tail = (s.sw_tail + 2) % s.buffer_size ∧
    (s.try_push a b).2.head = s.head ∧
    (s.try_push a b).2.buffer_size = s.buffer_size ∧
    (s.try_push a b).2.batch_size = s.batch_size := by
  rw [try_push_not_full s a b hfull]
  exact ⟨rfl, (set_tail_fields _ _).1, (set_tail_fields _ _).2.1,
    (set_tail_fields _ _).2.2.1, (set_tail_fields _ _).2.2.2⟩

/-- Unfolding `try_pop` when the emptiness guard does not fire. -/
theorem try_pop_ready (s : CohortFifo)
    (hguard : (s.is_empty || s.num_elems == 1) = false) :
    s.try_pop =
      (.ok (s.buffer.getD s.head 0, s.buffer.getD ((s.head + 1) % s.buffer_size) 0),
        s.set_head ((s.head + 2) % s.buffer_size)) := by
  unfold try_pop
  rw [hguard, if_neg Bool.false_ne_true]

/-- `try_pop` never writes either tail index. -/
theorem try_pop_preserves_tails (s : CohortFifo) :
    (s.try_pop).2.sw_tail = s.sw_tail ∧ (s.try_pop).2.hw_tail = s.hw_tail := by
  unfold try_pop
  split
  · exact ⟨rfl, rfl⟩
  · exact ⟨rfl, rfl⟩

/-- C1: the claim states that for every sequence of paired pushes and pops
kept within capacity, each pop returns the pair pushed at the same ordinal
position.  The code violates this: on a capacity-2 buffer the sequence
push(1,2), pop, push(3,4), pop has its second pop return `Empty` instead of
the pair (3,4), because after the wrapping push `num_elems` evaluates
`head - sw_tail = 2 - 1 = 1` and the pop guard rejects the state.  The
repository test `edge_case_full_empty` asserts that this very pop succeeds
with (3,4). -/
theorem claim_C1_wrap_order_fails :
    ((new 2 2).map fun s0 =>
      let r1 := s0.try_push 1 2
      let p1 := r1.2.try_pop
      let r2 := p1.2.try_push 3 4
      let p2 := r2.2.try_pop
      (r1.1, p1.1, r2.1, p2.1))
    = .ok (.ok (), .ok (1, 2), .ok (), .error .Empty) := rfl

/-- C2: in batching mode (with the spec-modelled `set_tail`, whose body is
absent from the sources), on any well-formed state whose unpublished gap is
even and below `batch_size`, a push off a non-full state succeeds, advances
`sw_tail` by 2 modulo `buffer_size`, republishes `hw_tail := sw_tail`
exactly when the unpublished count reaches `batch_size`, and leaves the gap
`(sw_tail - hw_tail) mod buffer_size` even and inside `[0, batch_size)`;
`try_pop` touches neither tail, so the gap also survives every pop. -/
theorem claim_C2_batching_gap (s : CohortFifo) (e1 e2 : Nat)
    (hsw : s.sw_tail < s.buffer_size) (hhw : s.hw_tail < s.buffer_size)
    (hB2 : 2 ≤ s.batch_size) (hBe : s.batch_size % 2 = 0)
    (hBbs : s.batch_size < s.buffer_size)
    (hge : s.unpublished % 2 = 0) (hgB : s.unpublished < s.batch_size)
    (hfull : s.is_full = false) :
    (s.try_push e1 e2).1 = .ok () ∧
    (s.try_push e1 e2).2.sw_tail = (s.sw_tail + 2) % s.buffer_size ∧
    (((s.try_push e1 e2).2.hw_tail = (s.try_push e1 e2).2.sw_tail ∧
        s.unpublished + 2 = s.batch_size) ∨
      ((s.try_push e1 e2).2.hw_tail = s.hw_tail ∧
        s.unpublished + 2 < s.batch_size)) ∧
    (s.try_push e1 e2).2.unpublished < s.batch_size ∧
    (s.try_push e1 e2).2.unpublished % 2 = 0 ∧
    (s.try_pop).2.sw_tail = s.sw_tail ∧ (s.try_pop).2.hw_tail = s.hw_tail := by
  have hbs2 : 2 ≤ s.buffer_size := le_trans hB2 (le_of_lt hBbs)
  have hg2 : ((s.sw_tail + 2) % s.buffer_size + s.buffer_size - s.hw_tail)
      % s.buffer_size = s.unpublished + 2 := by
    rw [unpub_advance s.sw_tail s.hw_tail s.buffer_size hbs2 hsw hhw]
    show (s.unpublished + 2) % s.buffer_size = s.unpublished + 2
    exact Nat.mod_eq_of_lt (by omega)
  rw [try_push_not_full s e1 e2 hfull, set_tail_cases]
  dsimp only
  rw [hg2]
  by_cases hc : s.batch_size ≤ s.unpublished + 2
  · have heq : s.unpublished + 2 = s.batch_size := by omega
    rw [if_pos hc]
    refine ⟨rfl, rfl, Or.inl ⟨rfl, heq⟩, ?_, ?_,
      (try_pop_preserves_tails s).1, (try_pop_preserves_tails s).2⟩
    · show ((s.sw_tail + 2) % s.buffer_size + s.buffer_size
          - (s.sw_tail + 2) % s.buffer_size) % s.buffer_size < s.batch_size
      have e : (s.sw_tail + 2) % s.buffer_size + s.buffer_size
          - (s.sw_tail + 2) % s.buffer_size = s.buffer_size := by omega
      rw [e, Nat.mod_self]
      omega
    · show ((s.sw_tail + 2) % s.buffer_size + s.buffer_size
          - (s.sw_tail + 2) % s.buffer_size) % s.buffer_size % 2 = 0
      have e : (s.sw_tail + 2) % s.buffer_size + s.buffer_size
          - (s.sw_tail + 2) % s.buffer_size = s.buffer_size := by omega
      rw [e, Nat.mod_self]
  · have hlt : s.unpublished + 2 < s.batch_size := by omega
    rw [if_neg hc]
    refine ⟨rfl, rfl, Or.inr ⟨rfl, hlt⟩, ?_, ?_,
      (try_pop_preserves_tails s).1, (try_pop_preserves_tails s).2⟩
    · show ((s.sw_tail + 2) % s.buffer_size + s.buffer_size - s.hw_tail)
          % s.buffer_size < s.batch_size
      rw [hg2]
      exact hlt
    · show ((s.sw_tail + 2) % s.buffer_size + s.buffer_size - s.hw_tail)
          % s.buffer_size % 2 = 0
      rw [hg2]
      omega

/-- C2 witness: the batching theorem applied at a concrete capacity-4,
batch-size-4 state with one pair already pushed but unpublished. -/
theorem claim_C2_batching_gap_witness :
    (half_batch_state.try_push 3 4).1 = .ok () ∧
    (half_batch_state.try_push 3 4).2.sw_tail
      = (half_batch_state.sw_tail + 2) % half_batch_state.buffer_size ∧
    (((half_batch_state.try_push 3 4).2.hw_tail
          = (half_batch_state.try_push 3 4).2.sw_tail ∧
        half_batch_state.unpublished + 2 = half_batch_state.batch_size) ∨
      ((half_batch_state.try_push 3 4).2.hw_tail = half_batch_state.hw_tail ∧
        half_batch_state.unpublished + 2 < half_batch_state.batch_size)) ∧
    (half_batch_state.try_push 3 4).2.unpublished < half_batch_state.batch_size ∧
    (half_batch_state.try_push 3 4).2.unpublished % 2 = 0 ∧
    (half_batch_state.try_pop).2.sw_tail = half_batch_state.sw_tail ∧
    (half_batch_state.try_pop).2.hw_tail = half_batch_state.hw_tail :=
  claim_C2_batching_gap half_batch_state 3 4
    (by decide) (by decide) (by decide) (by decide) (by decide) (by decide)
    (by decide) (by decide)

/-- C3: the claim states that `try_pop` first resynchronizes
`sw_tail := hw_tail` before any emptiness check.  The code performs no such
resynchronization: in a receiver state where the hardware has published
`hw_tail = 2` over a stale `sw_tail = 0`, `try_pop` returns `Empty` and
leaves the state, including `sw_tail`, exactly as it was, never reading
`hw_tail`.  The comment block at `src/fifo.rs:184` claims the update
happens inside `try_pop`. -/
theorem claim_C3_no_resync :
    try_pop stale_receiver = (.error .Empty, stale_receiver) ∧
    stale_receiver.sw_tail = 0 ∧ stale_receiver.hw_tail = 2 :=
  ⟨rfl, rfl, rfl⟩

/-- C4: the claim describes the capacity-4 wraparound scenario: two pushes
fill the buffer, a pop yields (1,2), push(5,6) wraps, and the next pops
yield (3,4) then (5,6).  The code diverges at the first pop after the
wrapping push: it returns `Empty` (with `head = 2`, `sw_tail = 1`,
`num_elems` evaluates `head - sw_tail = 1`), while the repository test
`wraparound_behavior` asserts that this pop succeeds with (3,4). -/
theorem claim_C4_wraparound_fails :
    ((new 4 2).map fun s0 =>
      let r1 := s0.try_push 1 2
      let r2 := r1.2.try_push 3 4
      let p1 := r2.2.try_pop
      let r3 := p1.2.try_push 5 6
      let p2 := r3.2.try_pop
      (r1.1, r2.1, r2.2.is_full, p1.1, r3.1, p2.1))
    = .ok (.ok (), .ok (), true, .ok (1, 2), .ok (), .error .Empty) := rfl

/-- C5 counterexample: the claim states `num_elems()` equals the forward
distance `(head - sw_tail) mod buffer_size`.  In the reachable capacity-4
state after one push (`head = 0`, `sw_tail = 2`), `num_elems()` returns 2
while the claimed formula gives 3: the wrap branch of the code adds
`capacity`, not `buffer_size`. -/
theorem claim_C5_counterexample :
    ((new 4 2).bind fun s0 =>
      (pushList s0 [(1, 2)]).map fun s1 => (s1.num_elems, s1.num_elems_spec))
      = .ok (2, 3) ∧ (2 : Nat) ≠ 3 :=
  ⟨rfl, by decide⟩

/-- C5 amended: for in-range indices, `num_elems()` equals the forward
distance `(head - sw_tail) mod buffer_size` when `head >= sw_tail`, and
that distance minus one when `head < sw_tail`, because the wrap branch of
the code adds `capacity` where the claimed formula adds `buffer_size`. -/
theorem claim_C5_amended (s : CohortFifo)
    (hh : s.head < s.buffer_size) (ht : s.sw_tail < s.buffer_size) :
    s.num_elems =
      if s.sw_tail ≤ s.head then s.num_elems_spec else s.num_elems_spec - 1 := by
  unfold num_elems num_elems_spec capacity
  by_cases hc : s.sw_tail ≤ s.head
  · rw [if_pos hc, if_pos hc]
    have e1 : s.head + s.buffer_size - s.sw_tail
        = s.head - s.sw_tail + s.buffer_size := by omega
    rw [e1, Nat.add_mod_right, Nat.mod_eq_of_lt (by omega)]
  · rw [if_neg hc, if_neg hc, Nat.mod_eq_of_lt (by omega)]
    omega

/-- C5 witness: the amended theorem applied at the reachable capacity-4
state with `head = 0`, `sw_tail = 2` (where `num_elems` gives 2 and the
distance is 3). -/
theorem claim_C5_amended_witness :
    half_batch_state.num_elems =
      if half_batch_state.sw_tail ≤ half_batch_state.head
      then half_batch_state.num_elems_spec
      else half_batch_state.num_elems_spec - 1 :=
  claim_C5_amended half_batch_state (by decide) (by decide)

/-- C6 counterexample: the claim states that pushing and then popping
`capacity / 2` pairs returns the indices to their initial values.  On a
fresh capacity-2 buffer the indices start at `head = sw_tail = 0`, and
after one push and one pop the buffer is empty but both indices sit at 2,
not 0. -/
theorem claim_C6_counterexample :
    ((new 2 2).map fun s0 => (s0.head, s0.sw_tail)) = .ok (0, 0) ∧
    ((new 2 2).bind fun s0 =>
      (pushList s0 [(1, 2)]).bind fun s1 =>
        (popN s1 1).map fun s2 => (s2.head, s2.sw_tail, s2.is_empty))
      = .ok (2, 2, true) ∧
    (2 : Nat) ≠ 0 :=
  ⟨rfl, rfl, by decide⟩

/-- Pushing a list of pairs from a state with `head = 0` and room for all
of them succeeds and advances `sw_tail` by 2 per pair, without wrapping. -/
theorem pushList_ok (xs : List (Nat × Nat)) : ∀ (s : CohortFifo) (cap : Nat),
    s.buffer_size = cap + 1 → s.head = 0 → s.sw_tail + 2 * xs.length ≤ cap →
    ∃ s1, pushList s xs = .ok s1 ∧ s1.head = 0 ∧
      s1.sw_tail = s.sw_tail + 2 * xs.length ∧ s1.buffer_size = cap + 1 := by
  induction xs with
  | nil =>
    intro s cap hbs hh hle
    exact ⟨s, rfl, hh, by simp, hbs⟩
  | cons p rest ih =>
    intro s cap hbs hh hle
    rw [List.length_cons] at hle
    have hroom : s.sw_tail + 2 ≤ cap := by omega
    have hfull : s.is_full = false := by
      unfold is_full
      rw [hh, hbs, Nat.zero_mod, Nat.mod_eq_of_lt (by omega)]
      simp
    obtain ⟨-, hsw, hhd, hbs2, -⟩ := try_push_fields s p.1 p.2 hfull
    have hswv : (s.try_push p.1 p.2).2.sw_tail = s.sw_tail + 2 := by
      rw [hsw, hbs, Nat.mod_eq_of_lt (by omega)]
    obtain ⟨s1, hrun, h1h, h1sw, h1bs⟩ :=
      ih (s.try_push p.1 p.2).2 cap (by rw [hbs2, hbs]) (by rw [hhd, hh])
        (by rw [hswv]; omega)
    refine ⟨s1, ?_, h1h, ?_, h1bs⟩
    · unfold pushList
      rw [try_push_not_full s p.1 p.2 hfull]
      rw [try_push_not_full s p.1 p.2 hfull] at hrun
      exact hrun
    · rw [h1sw, hswv, List.length_cons]
      omega

/-- Popping `n` pairs from a state whose tail sits at `cap` and whose even
`head` leaves room for all of them succeeds and advances `head` by 2 per
pair, without wrapping. -/
theorem popN_ok (n : Nat) : ∀ (s : CohortFifo) (cap : Nat),
    s.buffer_size = cap + 1 → s.sw_tail = cap → s.head % 2 = 0 →
    s.head + 2 * n ≤ cap →
    ∃ s2, popN s n = .ok s2 ∧ s2.head = s.head + 2 * n ∧
      s2.sw_tail = cap ∧ s2.buffer_size = cap + 1 := by
  induction n with
  | zero =>
    intro s cap hbs hsw hev hle
    exact ⟨s, rfl, by simp, hsw, hbs⟩
  | succ k ih =>
    intro s cap hbs hsw hev hle
    have hroom : s.head + 2 ≤ cap := by omega
    have hguard : (s.is_empty || s.num_elems == 1) = false := by
      unfold is_empty num_elems capacity
      rw [hsw, hbs, if_neg (by omega : ¬ cap ≤ s.head)]
      have e : cap + 1 - 1 + s.head - cap = s.head := by omega
      rw [e]
      simp only [Bool.or_eq_false_iff, beq_eq_false_iff_ne]
      exact ⟨by omega, by omega⟩
    have hpop := try_pop_ready s hguard
    have hheadv : (s.try_pop).2.head = s.head + 2 := by
      rw [hpop]
      show (s.head + 2) % s.buffer_size = s.head + 2
      rw [hbs]
      exact Nat.mod_eq_of_lt (by omega)
    have hswv : (s.try_pop).2.sw_tail = cap := by
      rw [(try_pop_preserves_tails s).1, hsw]
    have hbsv : (s.try_pop).2.buffer_size = cap + 1 := by
      rw [hpop]
      exact hbs
    obtain ⟨s2, hrun, h2h, h2sw, h2bs⟩ :=
      ih (s.try_pop).2 cap hbsv hswv (by rw [hheadv]; omega) (by rw [hheadv]; omega)
    refine ⟨s2, ?_, ?_, h2sw, h2bs⟩
    · unfold popN
      rw [hpop]
      rw [hpop] at hrun
      exact hrun
    · rw [h2h, hheadv]
      omega

/-- C6 amended: pushing and then popping `capacity / 2` pairs starting from
a freshly constructed buffer succeeds and leaves the buffer empty, but both
indices end at `capacity`, advanced from their initial value 0 rather than
returned to it. -/
theorem claim_C6_amended (cap B : Nat) (xs : List (Nat × Nat))
    (hB2 : 2 ≤ B) (hBe : B % 2 = 0) (hBc : B ≤ cap) (hce : cap % 2 = 0)
    (hlen : xs.length = cap / 2) :
    ∃ s0 s1 s2, new cap B = .ok s0 ∧ pushList s0 xs = .ok s1 ∧
      popN s1 (cap / 2) = .ok s2 ∧
      s0.head = 0 ∧ s0.sw_tail = 0 ∧ s2.head = cap ∧ s2.sw_tail = cap ∧
      s2.is_empty = true ∧ cap ≠ 0 := by
  have hnew : new cap B = .ok
      { head := 0, hw_tail := 0, batch_size := B, buffer_size := cap + 1
        sw_tail := 0, buffer := List.replicate (cap + 1) 0 } := by
    unfold new
    rw [if_neg (by omega), if_neg (by omega), if_neg (by omega), if_neg (by omega)]
  have h2len : 2 * xs.length = cap := by omega
  have hstart : ({ head := 0, hw_tail := 0, batch_size := B, buffer_size := cap + 1
                   sw_tail := 0, buffer := List.replicate (cap + 1) 0 } :
      CohortFifo).sw_tail = 0 := rfl
  obtain ⟨s1, hpush, h1h, h1sw, h1bs⟩ :=
    pushList_ok xs
      { head := 0, hw_tail := 0, batch_size := B, buffer_size := cap + 1
        sw_tail := 0, buffer := List.replicate (cap + 1) 0 }
      cap rfl rfl (by rw [hstart]; omega)
  have h1swv : s1.sw_tail = cap := by rw [h1sw, hstart]; omega
  obtain ⟨s2, hpop, h2h, h2sw, h2bs⟩ :=
    popN_ok (cap / 2) s1 cap h1bs h1swv (by rw [h1h]) (by rw [h1h]; omega)
  have h2hv : s2.head = cap := by rw [h2h, h1h]; omega
  refine ⟨_, s1, s2, hnew, hpush, hpop, rfl, rfl, h2hv, h2sw, ?_, by omega⟩
  unfold is_empty
  rw [h2hv, h2sw]
  simp

/-- C6 amended witness: a concrete capacity-4 round trip of two pairs. -/
theorem claim_C6_amended_witness :
    ∃ s0 s1 s2, new 4 2 = .ok s0 ∧ pushList s0 [(1, 2), (3, 4)] = .ok s1 ∧
      popN s1 (4 / 2) = .ok s2 ∧
      s0.head = 0 ∧ s0.sw_tail = 0 ∧ s2.head = 4 ∧ s2.sw_tail = 4 ∧
      s2.is_empty = true ∧ (4 : Nat) ≠ 0 :=
  claim_C6_amended 4 2 [(1, 2), (3, 4)]
    (by decide) (by decide) (by decide) (by decide) (by decide)

/-- C7 counterexample: the claim states the kernel unregistration call is
issued exactly once over a channel lifetime, and not a second time at
destruction when it was already invoked explicitly.  The destructor calls
`cohort_mn_unregister` unconditionally, so a channel unregistered once
explicitly sees two unregister syscalls by the time it is destroyed. -/
theorem claim_C7_counterexample :
    countUnregister (lifetimeCalls 1) = 2 ∧ 2 ≠ 1 :=
  ⟨rfl, by decide⟩

/-- C7 amended: the unregister syscall is issued once per explicit
`cohort_mn_unregister` call plus once more at destruction, which runs it
unconditionally: a lifetime with `n` explicit calls issues `n + 1`
unregister syscalls (so exactly once holds only when it is never invoked
manually). -/
theorem claim_C7_amended (n : Nat) :
    countUnregister (lifetimeCalls n) = n + 1 := by
  induction n with
  | zero => rfl
  | succ k ih =>
    unfold countUnregister lifetimeCalls at ih ⊢
    rw [List.replicate_succ, List.flatten_cons, List.append_assoc,
      List.count_append, ih]
    have h1 : cohort_mn_unregister.count KernelCall.unregisterCall = 1 := rfl
    rw [h1]
    omega

/-- C7 amended witness: two explicit unregister calls and a destruction
give three unregister syscalls. -/
theorem claim_C7_amended_witness :
    countUnregister (lifetimeCalls 2) = 2 + 1 :=
  claim_C7_amended 2

/-- C8: the claim states that whenever the buffer holds fewer than 2 unread
elements, `try_pop` returns `Empty` and leaves `head` unchanged, never
popping a single element off an odd count.  In a capacity-4 state holding
exactly one unread element (`head = 0`, tail one past it), the guard
`num_elems() == 1` misfires — `num_elems` evaluates `capacity + 0 - 1 = 3`
— and `try_pop` succeeds, advancing `head` to 2, contradicting the comment
in `try_pop` that it ensures at least two elements were pushed. -/
theorem claim_C8_single_elem_popped :
    (one_elem_state.sw_tail + one_elem_state.buffer_size - one_elem_state.head)
        % one_elem_state.buffer_size = 1 ∧
    try_pop one_elem_state = (.ok (9, 8), { one_elem_state with head := 2 }) :=
  ⟨rfl, rfl⟩

/-- C9: construction validation is total and typed: capacity 5 with any
valid batch size gives `CapacityNotEven`; batch size 3 gives
`BatchSizeNotEven`; batch size 1 gives `BatchSizeTooSmall`; capacity 4 with
batch size 6 gives `CapacityLessThanBatchSize`; and construction succeeds,
returning the zero-initialized state, for every even capacity at least an
even batch size at least 2. -/
theorem claim_C9_validation :
    (∀ b, 2 ≤ b → b % 2 = 0 → b ≤ 5 → new 5 b = .error .CapacityNotEven) ∧
    (∀ c, new c 3 = .error .BatchSizeNotEven) ∧
    (∀ c, new c 1 = .error .BatchSizeTooSmall) ∧
    (new 4 6 = .error .CapacityLessThanBatchSize) ∧
    (∀ c b, 2 ≤ b → b % 2 = 0 → b ≤ c → c % 2 = 0 →
      new c b = .ok
        { head := 0, hw_tail := 0, batch_size := b, buffer_size := c + 1
          sw_tail := 0, buffer := List.replicate (c + 1) 0 }) := by
  refine ⟨?_, ?_, ?_, rfl, ?_⟩
  · intro b hb2 hbe hb5
    unfold new
    rw [if_neg (by omega), if_neg (by omega), if_neg (by omega), if_pos (by omega)]
  · intro c
    unfold new
    rw [if_neg (by omega), if_pos (by omega)]
  · intro c
    unfold new
    rw [if_pos (by omega)]
  · intro c b hb2 hbe hbc hce
    unfold new
    rw [if_neg (by omega), if_neg (by omega), if_neg (by omega), if_neg (by omega)]

/-- C9 witness: the validation theorem applied at the concrete inputs the
claim lists. -/
theorem claim_C9_validation_witness :
    new 5 4 = .error .CapacityNotEven ∧
    new 9 3 = .error .BatchSizeNotEven ∧
    new 9 1 = .error .BatchSizeTooSmall ∧
    new 4 6 = .error .CapacityLessThanBatchSize ∧
    new 6 4 = .ok
      { head := 0, hw_tail := 0, batch_size := 4, buffer_size := 6 + 1
        sw_tail := 0, buffer := List.replicate (6 + 1) 0 } :=
  ⟨claim_C9_validation.1 4 (by decide) (by decide) (by decide),
   claim_C9_validation.2.1 9,
   claim_C9_validation.2.2.1 9,
   claim_C9_validation.2.2.2.1,
   claim_C9_validation.2.2.2.2 6 4 (by decide) (by decide) (by decide) (by decide)⟩

/-- C10: on any state in which `is_full()` holds, `try_push` returns the
`Full` error and the successor state is the argument state itself — every
index and every stored element unchanged — and conversely the `Full`
outcome arises only from a full state. -/
theorem claim_C10_full_push_unchanged (s : CohortFifo) (a b : Nat) :
    s.try_push a b = (.error .Full, s) ↔ s.is_full = true := by
  unfold try_push
  cases hf : s.is_full <;> simp [hf]

/-- C10 witness: the theorem applied to a concrete full state (capacity 2,
one pair pushed). -/
theorem claim_C10_full_push_unchanged_witness :
    try_push
      { head := 0, hw_tail := 2, batch_size := 2, buffer_size := 3, sw_tail := 2
        buffer := [1, 2, 0] } 9 9
      = (.error .Full,
        { head := 0, hw_tail := 2, batch_size := 2, buffer_size := 3, sw_tail := 2
          buffer := [1, 2, 0] }) :=
  (claim_C10_full_push_unchanged _ 9 9).mpr rfl

end Cohort
